import Mathlib

/-!
Verification of the engagement-bot progression, ingestion and survey
aggregation logic, shallowly embedded from the Python source
(src/models/user.py, src/services/user_service.py,
src/services/news_service.py, src/services/players_service.py,
src/services/survey_service.py).
-/

set_option autoImplicit false

namespace FuriaBot

/-! ## Progression policy (a): UserModel.add_xp (src/models/user.py)

The source computes the level from cumulative experience in one closed form:
level = 1 + int((new_xp / 100) ** 0.8).
In exact arithmetic, for xp >= 0, int((xp/100)^0.8) = floor((xp/100)^(4/5))
is the greatest natural k with k^5 <= (xp/100)^4, i.e. with
k^5 * 100^4 <= xp^4; we embed the formula through this integer
characterisation, which keeps the definition executable. -/

/-- Closed-form level of UserModel.add_xp: 1 + floor((xp/100)^0.8),
rendered as 1 plus the greatest k with k^5 * 100^4 <= xp^4. -/
def modelLevel (xp : ℕ) : ℕ :=
  1 + Nat.findGreatest (fun k => k ^ 5 * 100 ^ 4 ≤ xp ^ 4) xp

/-- Engagement counters of a user record (the engagement_metrics subdocument). -/
structure Engagement where
  mission_completions : ℕ
  survey_completions : ℕ
  social_shares : ℕ
  bot_interactions : ℕ
  deriving DecidableEq, Repr

/-- The part of the users-collection document that UserModel.add_xp reads or
writes (telegram_id selects the record and is irrelevant to the computation;
last_active / updated_at are wall-clock timestamps, not modelled). -/
structure MUser where
  xp : ℕ
  level : ℕ
  engagement : Engagement
  deriving DecidableEq, Repr

/-- Result dictionary returned by UserModel.add_xp. -/
structure AddXpResult where
  current_xp : ℕ
  new_level : ℕ
  level_up : Bool
  previous_level : Option ℕ
  deriving DecidableEq, Repr

/-- UserModel.add_xp: adds xp_amount to the stored xp, recomputes the level
with the closed-form formula, persists xp and level, increments
engagement_metrics.bot_interactions by 1, and returns the result dictionary
(current_xp, new_level, level_up, previous_level). The pair is the persisted
record together with the returned dictionary. -/
def add_xp (u : MUser) (xp_amount : ℕ) : MUser × AddXpResult :=
  let new_xp := u.xp + xp_amount
  let new_level := modelLevel new_xp
  let level_up := decide (u.level < new_level)
  ({ xp := new_xp
     level := new_level
     engagement :=
       { u.engagement with
         bot_interactions := u.engagement.bot_interactions + 1 } },
   { current_xp := new_xp
     new_level := new_level
     level_up := level_up
     previous_level := if level_up then some u.level else none })

/-! ## Progression policy (b): UserService.update_user_xp
(src/services/user_service.py)

The source runs a while loop: while new_xp >= xp_to_next, it subtracts the
threshold, increments the level, and sets the threshold to
int(xp_to_next * 1.5) = 3 * xp_to_next / 2 (integer truncation of an exact
float product for the magnitudes involved). The loop terminates because the
threshold is positive in every reachable state (it starts at 100 and only
grows); the embedding adds the positivity test to the loop guard so that the
recursion is well founded on the xp argument. -/

/-- The while loop of UserService.update_user_xp: returns the final
(xp, level, xp_to_next_level) triple. -/
def xpLoop (xp level next : ℕ) : ℕ × ℕ × ℕ :=
  if h : 0 < next ∧ next ≤ xp then
    xpLoop (xp - next) (level + 1) (3 * next / 2)
  else
    (xp, level, next)
termination_by xp
decreasing_by
  exact Nat.sub_lt (Nat.lt_of_lt_of_le h.1 h.2) h.1

/-- The part of the users-collection document that UserService.update_user_xp
reads or writes, plus the engagement_metrics subdocument (which the update
does not mention). -/
structure SvcUser where
  xp : ℕ
  level : ℕ
  xp_to_next_level : ℕ
  engagement : Engagement
  deriving DecidableEq, Repr

/-- UserService.update_user_xp: adds xp_gained to the stored xp, walks the
threshold loop, and persists xp, level and xp_to_next_level with a $set (the
update touches no other field; in particular engagement_metrics is left as
it was). -/
def update_user_xp (u : SvcUser) (xp_gained : ℕ) : SvcUser :=
  let r := xpLoop (u.xp + xp_gained) u.level u.xp_to_next_level
  { u with xp := r.1, level := r.2.1, xp_to_next_level := r.2.2 }

/-- Level reached under policy (b) by a freshly created service user
(xp 0, level 1, xp_to_next_level 100, as written by UserService.create_user)
after a single experience grant. -/
def svcLevelFromFresh (xp_gained : ℕ) : ℕ :=
  (update_user_xp { xp := 0, level := 1, xp_to_next_level := 100,
                    engagement := ⟨0, 0, 0, 0⟩ } xp_gained).level

/-! ## Content registry (src/services/players_service.py)

PlayerService loads config/players.json into a dict mapping player id to a
dict of handles; get_twitter_handle is players.get(player_id, {}).get("twitter"). -/

/-- Handle configuration of one player in config/players.json. -/
structure PlayerCfg where
  twitter : Option String
  instagram_id : Option String
  deriving DecidableEq, Repr

/-- The loaded players mapping (player id to handle configuration). -/
abbrev PlayerRegistry := List (String × PlayerCfg)

/-- PlayerService.get_twitter_handle: players.get(player_id, {}).get("twitter"). -/
def get_twitter_handle (players : PlayerRegistry) (player_id : String) : Option String :=
  match players.find? (fun p => decide (p.1 = player_id)) with
  | some p => p.2.twitter
  | none => none

/-! ## Content ingestion store (src/services/news_service.py)

Each normalized post is written with
update_one(filter, \x7b"$setOnInsert": doc\x7d, upsert = True): when a
document already matches the uniqueness filter the write is a no-op,
otherwise the document is inserted. A collection is modelled as an
association list from the uniqueness key to the stored document, and the
write as an insert-if-absent. -/

/-- Tweet item as returned by the tweet-fetch endpoint. -/
structure Tweet where
  id : String
  created_at : String
  text : String
  deriving DecidableEq, Repr

/-- Normalized post document (§3 Post record). media holds media URLs (always
empty for tweets); timestamp keeps the source timestamp string; player_id is
present only for player posts. -/
structure PostDoc where
  player_id : Option String
  source : String
  post_id : String
  timestamp : String
  text : String
  media : List String
  url : String
  deriving DecidableEq, Repr

/-- Membership of a key in an association-list collection. -/
def containsKey {κ δ : Type} [DecidableEq κ] (k : κ) (s : List (κ × δ)) : Bool :=
  s.any (fun p => decide (p.1 = k))

/-- MongoDB update_one(filter, \x7b$setOnInsert: doc\x7d, upsert=True):
insert the document if no record matches the key, otherwise change nothing. -/
def upsertSetOnInsert {κ δ : Type} [DecidableEq κ] (k : κ) (d : δ)
    (s : List (κ × δ)) : List (κ × δ) :=
  if containsKey k s then s else s ++ [(k, d)]

/-- Number of records stored under a key. -/
def countKey {κ δ : Type} [DecidableEq κ] (k : κ) (s : List (κ × δ)) : ℕ :=
  (s.filter (fun p => decide (p.1 = k))).length

/-- Stored document under a key, if any. -/
def lookupKey {κ δ : Type} [DecidableEq κ] (k : κ) (s : List (κ × δ)) : Option δ :=
  (s.find? (fun p => decide (p.1 = k))).map (fun p => p.2)

/-- Team-news collection, keyed by (source, post_id). -/
abbrev TeamStore := List ((String × String) × PostDoc)

/-- Player-news collection, keyed by (player_id, post_id). -/
abbrev PlayerStore := List ((String × String) × PostDoc)

/-- Fixed team handle (self.team_twitter_username = "FURIA"). -/
def team_twitter_username : String := "FURIA"

/-- Document built for one team tweet in fetch_team_tweets. -/
def teamTweetDoc (t : Tweet) : PostDoc :=
  { player_id := none
    source := "twitter"
    post_id := t.id
    timestamp := t.created_at
    text := t.text
    media := []
    url := "https://twitter.com/" ++ team_twitter_username ++ "/status/" ++ t.id }

/-- Store-writing loop of fetch_team_tweets: upsert each fetched tweet into
team_news keyed by ("twitter", tweet id), with $setOnInsert semantics. -/
def fetch_team_tweets_store (tweets : List Tweet) (s : TeamStore) : TeamStore :=
  tweets.foldl (fun st t => upsertSetOnInsert ("twitter", t.id) (teamTweetDoc t) st) s

/-- Document built for one player tweet in fetch_player_tweets. -/
def playerTweetDoc (player_id handle : String) (t : Tweet) : PostDoc :=
  { player_id := some player_id
    source := "twitter"
    post_id := t.id
    timestamp := t.created_at
    text := t.text
    media := []
    url := "https://twitter.com/" ++ handle ++ "/status/" ++ t.id }

/-- Store-writing loop of fetch_player_tweets: upsert each fetched tweet into
player_news keyed by (player_id, tweet id), with $setOnInsert semantics. -/
def store_player_tweets (player_id handle : String) (tweets : List Tweet)
    (s : PlayerStore) : PlayerStore :=
  tweets.foldl
    (fun st t => upsertSetOnInsert (player_id, t.id) (playerTweetDoc player_id handle t) st) s

/-! ## Player-tweet fetch outcome (src/services/news_service.py, C6) -/

/-- Failures that can arise inside the try block of fetch_player_tweets:
the ValueError raised when no handle is configured, and the
requests/raise_for_status errors of the two HTTP calls. -/
inductive FetchErr where
  | handleNotConfigured (player_id : String)
  | httpError (status : ℕ)
  deriving DecidableEq, Repr

/-- External tweet API as consumed by the service: resolve a handle to a user
id, and fetch the recent tweets of a user id; either call can fail. -/
structure TwitterApi where
  user_id_of : String → Except ℕ String
  tweets_of : String → Except ℕ (List Tweet)

/-- Body of the try block of fetch_player_tweets, up to the store writes:
look up the handle (raising handleNotConfigured when absent), resolve the
user id, fetch the tweets; returns the handle and the tweets on success. -/
def fetch_player_tweets_core (players : PlayerRegistry) (api : TwitterApi)
    (player_id : String) : Except FetchErr (String × List Tweet) :=
  match get_twitter_handle players player_id with
  | none => Except.error (FetchErr.handleNotConfigured player_id)
  | some handle =>
    match api.user_id_of handle with
    | Except.error st => Except.error (FetchErr.httpError st)
    | Except.ok uid =>
      match api.tweets_of uid with
      | Except.error st => Except.error (FetchErr.httpError st)
      | Except.ok ts => Except.ok (handle, ts)

/-- Whole fetch_player_tweets call: any exception from the try block is
caught by the blanket except handler and only logged; the Python function
always returns None. The first component is the logged error (visible in the
log only), the second the resulting collection state. -/
def fetch_player_tweets (players : PlayerRegistry) (api : TwitterApi)
    (player_id : String) (s : PlayerStore) : Option FetchErr × PlayerStore :=
  match fetch_player_tweets_core players api player_id with
  | Except.error e => (some e, s)
  | Except.ok r => (none, store_player_tweets player_id r.1 r.2 s)

/-- Caller-visible outcome of fetch_player_tweets: the function returns None
in every case, so the caller can observe only the collection state. -/
def fetch_player_tweets_caller (players : PlayerRegistry) (api : TwitterApi)
    (player_id : String) (s : PlayerStore) : PlayerStore :=
  (fetch_player_tweets players api player_id s).2

/-! ## Survey aggregation (src/services/survey_service.py)

SurveyService.get_survey_results walks the survey's questions and, per
question, tallies the stored responses according to the question type
string. Stored answers are arbitrary Python values; the values reachable in
a response document are None, integers, strings and lists. -/

/-- Scalar Python value stored as (or inside) a survey answer. Dict
membership, which the choice branch applies to every tallied value, is
defined only for hashable values, so list members are modelled as
scalars. -/
inductive PyScalar where
  | none
  | int (n : ℤ)
  | str (s : String)
  deriving DecidableEq, Repr

/-- Python value stored as a survey answer: a scalar, or a list of scalars
(the multiple-choice shape). -/
inductive PyVal where
  | scalar (v : PyScalar)
  | list (l : List PyScalar)
  deriving DecidableEq, Repr

/-- Missing answer (.get returns None). -/
def pyNone : PyVal := PyVal.scalar PyScalar.none

/-- Integer answer. -/
def pyInt (n : ℤ) : PyVal := PyVal.scalar (PyScalar.int n)

/-- String answer. -/
def pyStr (s : String) : PyVal := PyVal.scalar (PyScalar.str s)

/-- Python truthiness of an answer value (the `if answer:` test of the text
branch): None, 0, the empty string and the empty list are falsy. -/
def pyTruthy : PyVal → Bool
  | PyVal.scalar PyScalar.none => false
  | PyVal.scalar (PyScalar.int n) => decide (n ≠ 0)
  | PyVal.scalar (PyScalar.str s) => decide (s ≠ "")
  | PyVal.list l => decide (l ≠ [])

/-- Decimal value of a digit character. -/
def digitVal (c : Char) : Option ℕ :=
  if c.isDigit then some (c.toNat - '0'.toNat) else Option.none

/-- Nonempty all-digit character list read as a natural number. -/
def parseNatDigits (ds : List Char) : Option ℕ :=
  match ds with
  | [] => Option.none
  | _ =>
    ds.foldl
      (fun acc c =>
        match acc, digitVal c with
        | some n, some d => some (10 * n + d)
        | _, _ => Option.none)
      (some 0)

/-- Python int(s) on a string: an optional minus sign followed by at least
one decimal digit; anything else raises ValueError (no result). -/
def pyStrToInt (s : String) : Option ℤ :=
  match s.data with
  | List.cons '-' ds => (parseNatDigits ds).map (fun n => -(n : ℤ))
  | ds => (parseNatDigits ds).map (fun n => (n : ℤ))

/-- Python int(v) on a scalar: integers pass through, decimal strings
parse, and None raises TypeError, which the scale branch catches and skips
(modelled as no result). -/
def pyToInt : PyScalar → Option ℤ
  | PyScalar.int n => some n
  | PyScalar.str s => pyStrToInt s
  | PyScalar.none => Option.none

/-- Survey question definition: text, type string, declared options
(question.get("options", []) — empty for text and scale questions; the
min/max bounds of scale questions are not read by the aggregator). -/
structure Question where
  text : String
  qtype : String
  options : List String
  deriving DecidableEq, Repr

/-- The "responses" dict of one stored response document, keyed by question
index (the source keys it by str(i); the index is modelled as the natural
number itself). -/
abbrev ResponseMap := List (ℕ × PyVal)

/-- response["responses"].get(str(i)): the answer stored for question i, or
None when the key is absent. -/
def getAnswer (r : ResponseMap) (i : ℕ) : PyVal :=
  match r.find? (fun q => decide (q.1 = i)) with
  | some q => q.2
  | Option.none => pyNone

/-- Dict comprehension of the choice branch: a zero count per declared
option, first occurrence first (a duplicated option keeps its first
position and still maps to zero). -/
def initCounts (options : List String) : List (String × ℕ) :=
  options.foldl (fun acc o => if containsKey o acc then acc else acc ++ [(o, 0)]) []

/-- Increment the count stored under a key (option_counts[key] += 1). -/
def bumpKey {κ : Type} [DecidableEq κ] (counts : List (κ × ℕ)) (key : κ) :
    List (κ × ℕ) :=
  counts.map (fun p => if p.1 = key then (p.1, p.2 + 1) else p)

/-- Guarded tally of one selected value:
if selected in option_counts: option_counts[selected] += 1. Non-string
values can never equal a string dict key, so they fall through. -/
def countSelected (counts : List (String × ℕ)) (v : PyScalar) : List (String × ℕ) :=
  match v with
  | PyScalar.str s => if containsKey s counts then bumpKey counts s else counts
  | _ => counts

/-- Choice branch of get_survey_results: start from the zero counts; a list
answer tallies each member (multiple_choice), any other answer is tallied
as a single value (single_choice); the isinstance(answer, list) test routes
list values before the dict-membership test. -/
def tallyChoice (options : List String) (answers : List PyVal) : List (String × ℕ) :=
  answers.foldl
    (fun counts a =>
      match a with
      | PyVal.list l => l.foldl countSelected counts
      | PyVal.scalar v => countSelected counts v)
    (initCounts options)

/-- Text branch of get_survey_results: the truthy answers, in arrival
order. -/
def textAnswersOf (answers : List PyVal) : List PyVal :=
  answers.filter (fun a => pyTruthy a)

/-- Scale branch, collection step: keep the answers that are not None and
that int() coerces, in arrival order. -/
def scaleAnswersOf (answers : List PyVal) : List ℤ :=
  answers.filterMap
    (fun a =>
      match a with
      | PyVal.scalar PyScalar.none => Option.none
      | PyVal.scalar v => pyToInt v
      | PyVal.list _ => Option.none)

/-- Numeric summary of the scale branch. The average is the exact rational
value of sum/len (the source computes its IEEE-float rounding). -/
structure ScaleStats where
  average : ℚ
  min : ℤ
  max : ℤ
  distribution : List (ℤ × ℕ)
  deriving DecidableEq, Repr

/-- Histogram of the scale branch: distribution[value] = get(value, 0) + 1,
keyed by first appearance order. -/
def buildDist (xs : List ℤ) : List (ℤ × ℕ) :=
  xs.foldl (fun acc v => if containsKey v acc then bumpKey acc v else acc ++ [(v, 1)]) []

/-- Scale branch summary: nothing when no answer coerced (the source then
emits no average/min/max/distribution keys), otherwise average, min, max
and histogram of the coerced answers. -/
def scaleStatsFromList (xs : List ℤ) : Option ScaleStats :=
  match xs with
  | [] => Option.none
  | x :: rest =>
    some { average := ((x :: rest).foldl (fun a b => a + b) 0 : ℤ) / ((x :: rest).length : ℚ)
           min := rest.foldl (fun a b => if b < a then b else a) x
           max := rest.foldl (fun a b => if a < b then b else a) x
           distribution := buildDist (x :: rest) }

/-- Scale branch of get_survey_results. -/
def scaleStatsOf (answers : List PyVal) : Option ScaleStats :=
  scaleStatsFromList (scaleAnswersOf answers)

/-- Per-question aggregation result: the question text and type, plus the
branch output for its type (absent fields are the dict keys the source does
not emit). -/
structure QuestionResult where
  question : String
  qtype : String
  option_counts : Option (List (String × ℕ))
  text_answers : Option (List PyVal)
  scale : Option ScaleStats
  deriving DecidableEq, Repr

/-- Aggregation of one question over the answer extracted from each
response, following the if/elif chain on the type string (an unknown type
string yields a result with no branch output). -/
def aggregateQuestion (q : Question) (answers : List PyVal) : QuestionResult :=
  if q.qtype = "multiple_choice" ∨ q.qtype = "single_choice" then
    { question := q.text, qtype := q.qtype,
      option_counts := some (tallyChoice q.options answers),
      text_answers := Option.none, scale := Option.none }
  else if q.qtype = "text" then
    { question := q.text, qtype := q.qtype, option_counts := Option.none,
      text_answers := some (textAnswersOf answers), scale := Option.none }
  else if q.qtype = "scale" then
    { question := q.text, qtype := q.qtype, option_counts := Option.none,
      text_answers := Option.none, scale := scaleStatsOf answers }
  else
    { question := q.text, qtype := q.qtype, option_counts := Option.none,
      text_answers := Option.none, scale := Option.none }

/-- Aggregated results document of get_survey_results. -/
structure SurveyResults where
  survey_title : String
  total_responses : ℕ
  questions : List QuestionResult
  deriving DecidableEq, Repr

/-- SurveyService.get_survey_results on a found survey: the title, the
response count, and for each question (in definition order, with its index)
the per-question aggregation over the answers the responses store for that
index. -/
def get_survey_results (title : String) (questions : List Question)
    (responses : List ResponseMap) : SurveyResults :=
  { survey_title := title
    total_responses := responses.length
    questions :=
      questions.enum.map
        (fun p => aggregateQuestion p.2 (responses.map (fun r => getAnswer r p.1))) }

/-! ## Progression lemmas -/

/-- The closed-form level is monotone in cumulative experience. -/
theorem modelLevel_mono {a b : ℕ} (h : a ≤ b) : modelLevel a ≤ modelLevel b := by
  unfold modelLevel
  exact Nat.add_le_add_left
    (Nat.findGreatest_mono (fun k hk => le_trans hk (Nat.pow_le_pow_left h 4)) h) 1

/-- The threshold loop of UserService.update_user_xp never lowers the level. -/
theorem xpLoop_level_le (xp level next : ℕ) : level ≤ (xpLoop xp level next).2.1 := by
  induction xp, level, next using xpLoop.induct with
  | case1 xp level next h ih =>
    rw [xpLoop]
    simp only [h, dif_pos]
    exact le_trans (Nat.le_succ level) ih
  | case2 xp level next h =>
    rw [xpLoop]
    simp [h]

/-! ## Claims about progression -/

set_option maxRecDepth 10000 in
/-- Claim C1: the closed-form policy of UserModel.add_xp and the iterative
threshold policy of UserService.update_user_xp are not numerically
equivalent: for some experience amount granted to a fresh level-1 user, the
two policies produce different levels (at 238 XP the closed form gives
level 3, the threshold model gives level 2). -/
theorem progression_policies_not_equivalent :
    ∃ g : ℕ, (add_xp ⟨0, 1, ⟨0, 0, 0, 1⟩⟩ g).2.new_level ≠ svcLevelFromFresh g := by
  refine ⟨238, ?_⟩
  have hb : svcLevelFromFresh 238 = 2 := by
    simp [svcLevelFromFresh, update_user_xp, xpLoop]
  rw [hb]
  decide

/-- Claim C2, counterexample: under UserService.update_user_xp the persisted
experience value can decrease after a non-negative grant: a user with 50 XP
toward a 100-XP threshold who gains 60 XP ends up with 10 XP stored. -/
theorem service_stored_xp_decreases :
    (update_user_xp ⟨50, 1, 100, ⟨0, 0, 0, 0⟩⟩ 60).xp < 50 := by
  simp [update_user_xp, xpLoop]

/-- Claim C2, amended: under UserModel.add_xp the persisted experience value
never decreases for a non-negative grant; the iterative service policy instead
stores the residual toward the next threshold, which can shrink at a
level-up. -/
theorem addxp_stored_xp_nondecreasing (u : MUser) (g : ℕ) :
    u.xp ≤ (add_xp u g).1.xp :=
  Nat.le_add_right _ _

/-- Claim C3: applying a non-negative experience grant to a user record whose
level is consistent with the stored experience yields new_level >= the
previous level, the returned level_up flag holds exactly when the level
strictly increased, and the iterative service policy also never lowers the
level. -/
theorem apply_xp_level_monotone (u : MUser) (g : ℕ) (h : u.level = modelLevel u.xp)
    (s : SvcUser) :
    u.level ≤ (add_xp u g).2.new_level ∧
    ((add_xp u g).2.level_up = true ↔ u.level < (add_xp u g).2.new_level) ∧
    s.level ≤ (update_user_xp s g).level := by
  refine ⟨?_, ?_, xpLoop_level_le _ _ _⟩
  · rw [h]
    exact modelLevel_mono (Nat.le_add_right _ _)
  · simp [add_xp]

set_option maxRecDepth 10000 in
/-- Witness for C3 at a fresh user and a 238-XP grant. -/
theorem apply_xp_level_monotone_witness :
    (⟨0, 1, ⟨0, 0, 0, 1⟩⟩ : MUser).level = modelLevel (⟨0, 1, ⟨0, 0, 0, 1⟩⟩ : MUser).xp ∧
    (1 ≤ (add_xp ⟨0, 1, ⟨0, 0, 0, 1⟩⟩ 238).2.new_level ∧
      ((add_xp ⟨0, 1, ⟨0, 0, 0, 1⟩⟩ 238).2.level_up = true ↔
        1 < (add_xp ⟨0, 1, ⟨0, 0, 0, 1⟩⟩ 238).2.new_level) ∧
      (⟨0, 1, 100, ⟨0, 0, 0, 0⟩⟩ : SvcUser).level ≤
        (update_user_xp ⟨0, 1, 100, ⟨0, 0, 0, 0⟩⟩ 238).level) :=
  ⟨by decide, apply_xp_level_monotone ⟨0, 1, ⟨0, 0, 0, 1⟩⟩ 238 (by decide)
    ⟨0, 1, 100, ⟨0, 0, 0, 0⟩⟩⟩

/-- Claim C4, counterexample: UserService.update_user_xp leaves the
engagement interaction counter untouched: a user whose bot_interactions is 5
still has 5, not 6, after an experience grant. -/
theorem service_interactions_not_incremented :
    (update_user_xp ⟨0, 1, 100, ⟨0, 0, 0, 5⟩⟩ 10).engagement.bot_interactions ≠ 6 := by
  simp [update_user_xp, xpLoop]

/-- Claim C4, amended: UserModel.add_xp increments bot_interactions by
exactly 1 and leaves the other engagement counters unchanged, while
UserService.update_user_xp leaves all engagement counters unchanged. -/
theorem engagement_counter_per_call (u : MUser) (g : ℕ) (s : SvcUser) (g' : ℕ) :
    (add_xp u g).1.engagement.bot_interactions = u.engagement.bot_interactions + 1 ∧
    (add_xp u g).1.engagement.mission_completions = u.engagement.mission_completions ∧
    (add_xp u g).1.engagement.survey_completions = u.engagement.survey_completions ∧
    (add_xp u g).1.engagement.social_shares = u.engagement.social_shares ∧
    (update_user_xp s g').engagement = s.engagement :=
  ⟨rfl, rfl, rfl, rfl, rfl⟩

/-- Claim C10: the result of UserModel.add_xp carries the prior level in
previous_level exactly when level_up is true; otherwise previous_level is
None. -/
theorem previous_level_only_on_levelup (u : MUser) (g : ℕ) :
    ((add_xp u g).2.level_up = true → (add_xp u g).2.previous_level = some u.level) ∧
    ((add_xp u g).2.level_up = false → (add_xp u g).2.previous_level = none) := by
  constructor <;> intro h <;> simp [add_xp] at h ⊢ <;> simp [h]

set_option maxRecDepth 10000 in
/-- Witness for C10: a 238-XP grant to a fresh user levels up and reports
previous level 1; a 0-XP grant does not level up and reports none. -/
theorem previous_level_only_on_levelup_witness :
    (add_xp ⟨0, 1, ⟨0, 0, 0, 1⟩⟩ 238).2.level_up = true ∧
    (add_xp ⟨0, 1, ⟨0, 0, 0, 1⟩⟩ 238).2.previous_level = some 1 ∧
    (add_xp ⟨0, 1, ⟨0, 0, 0, 1⟩⟩ 0).2.level_up = false ∧
    (add_xp ⟨0, 1, ⟨0, 0, 0, 1⟩⟩ 0).2.previous_level = none :=
  ⟨by decide, (previous_level_only_on_levelup ⟨0, 1, ⟨0, 0, 0, 1⟩⟩ 238).1 (by decide),
    by decide, (previous_level_only_on_levelup ⟨0, 1, ⟨0, 0, 0, 1⟩⟩ 0).2 (by decide)⟩

/-! ## Ingestion lemmas (insert-if-absent store) -/

section UpsertLemmas

variable {κ δ : Type} [DecidableEq κ]

/-- A key is absent exactly when it stores no record. -/
theorem containsKey_eq_false_iff (k : κ) (s : List (κ × δ)) :
    containsKey k s = false ↔ countKey k s = 0 := by
  simp [containsKey, countKey, List.any_eq_false, List.length_eq_zero,
    List.filter_eq_nil_iff]

/-- Writing to a key that already stores a record is a no-op. -/
theorem upsert_of_containsKey {k : κ} {s : List (κ × δ)} (d : δ)
    (h : containsKey k s = true) : upsertSetOnInsert k d s = s := by
  simp [upsertSetOnInsert, h]

/-- After a write the key is present. -/
theorem containsKey_upsert_self (k : κ) (d : δ) (s : List (κ × δ)) :
    containsKey k (upsertSetOnInsert k d s) = true := by
  unfold upsertSetOnInsert
  by_cases h : containsKey k s
  · simp [h]
  · simp only [h, if_neg, Bool.false_eq_true, if_false]
    simp [containsKey, List.any_append]

/-- Record counts add over concatenation. -/
theorem countKey_append (k : κ) (s t : List (κ × δ)) :
    countKey k (s ++ t) = countKey k s + countKey k t := by
  simp [countKey, List.filter_append]

/-- Writing to an absent key stores exactly one record. -/
theorem countKey_upsert_absent {k : κ} {s : List (κ × δ)} (d : δ)
    (h : countKey k s = 0) : countKey k (upsertSetOnInsert k d s) = 1 := by
  have hc : containsKey k s = false := (containsKey_eq_false_iff k s).2 h
  simp only [upsertSetOnInsert, hc, Bool.false_eq_true, if_false, countKey_append, h]
  simp [countKey]

/-- A key whose lookup succeeds is present. -/
theorem containsKey_of_lookupKey {k : κ} {s : List (κ × δ)} {d : δ}
    (h : lookupKey k s = some d) : containsKey k s = true := by
  unfold lookupKey at h
  cases hf : s.find? (fun q => decide (q.1 = k)) with
  | none => rw [hf] at h; simp at h
  | some q =>
    have hq := List.find?_some hf
    exact List.any_eq_true.2 ⟨q, List.mem_of_find?_eq_some hf, hq⟩

/-- A second write to the same key, with any document, changes nothing. -/
theorem upsert_upsert (k : κ) (d d' : δ) (s : List (κ × δ)) :
    upsertSetOnInsert k d' (upsertSetOnInsert k d s) = upsertSetOnInsert k d s :=
  upsert_of_containsKey d' (containsKey_upsert_self k d s)

/-- A stored document survives any later write to its key. -/
theorem lookupKey_upsert {k : κ} {s : List (κ × δ)} {d : δ} (d' : δ)
    (h : lookupKey k s = some d) :
    lookupKey k (upsertSetOnInsert k d' s) = some d := by
  rw [upsert_of_containsKey d' (containsKey_of_lookupKey h)]
  exact h

/-- Any positive number of writes to an absent key stores exactly one record. -/
theorem countKey_iterate_upsert {k : κ} (d : δ) (n : ℕ) {s : List (κ × δ)}
    (h : countKey k s = 0) :
    countKey k (Nat.iterate (fun s => upsertSetOnInsert k d s) (n + 1) s) = 1 := by
  induction n with
  | zero =>
    simp only [Nat.zero_add, Function.iterate_one]
    exact countKey_upsert_absent d h
  | succ n ih =>
    rw [Function.iterate_succ_apply']
    have hc : containsKey k (Nat.iterate (fun s => upsertSetOnInsert k d s) (n + 1) s) = true := by
      by_contra hc
      have := (containsKey_eq_false_iff k _).1 (Bool.eq_false_iff.2 hc)
      omega
    rw [upsert_of_containsKey d hc]
    exact ih

end UpsertLemmas

/-! ## Claims about ingestion -/

/-- Claim C5: ingestion is idempotent by uniqueness key. Re-processing the
same item (same external id, possibly different content) is a no-op; any
positive number of sightings of an initially absent item stores exactly one
record under ("twitter", tweet id) for team posts and (player id, tweet id)
for player posts; and an already stored document is never overwritten by a
later sighting. -/
theorem ingestion_idempotent_by_key (t t' : Tweet) (hid : t'.id = t.id) (d : PostDoc)
    (s1 s2 s3 : TeamStore) (n : ℕ)
    (pid handle handle' : String) (p1 p2 p3 : PlayerStore) (m : ℕ) :
    (fetch_team_tweets_store [t'] (fetch_team_tweets_store [t] s1) =
      fetch_team_tweets_store [t] s1) ∧
    (countKey ("twitter", t.id) s2 = 0 →
      countKey ("twitter", t.id) (Nat.iterate (fetch_team_tweets_store [t]) (n + 1) s2) = 1) ∧
    (lookupKey ("twitter", t.id) s3 = some d →
      lookupKey ("twitter", t.id) (fetch_team_tweets_store [t'] s3) = some d) ∧
    (store_player_tweets pid handle' [t'] (store_player_tweets pid handle [t] p1) =
      store_player_tweets pid handle [t] p1) ∧
    (countKey (pid, t.id) p2 = 0 →
      countKey (pid, t.id) (Nat.iterate (store_player_tweets pid handle [t]) (m + 1) p2) = 1) ∧
    (lookupKey (pid, t.id) p3 = some d →
      lookupKey (pid, t.id) (store_player_tweets pid handle' [t'] p3) = some d) := by
  have hteam : ∀ s : TeamStore, fetch_team_tweets_store [t] s =
      upsertSetOnInsert ("twitter", t.id) (teamTweetDoc t) s := fun _ => rfl
  have hteam' : ∀ s : TeamStore, fetch_team_tweets_store [t'] s =
      upsertSetOnInsert ("twitter", t.id) (teamTweetDoc t') s := by
    intro s
    rw [show fetch_team_tweets_store [t'] s =
      upsertSetOnInsert ("twitter", t'.id) (teamTweetDoc t') s from rfl, hid]
  have hp : ∀ s : PlayerStore, store_player_tweets pid handle [t] s =
      upsertSetOnInsert (pid, t.id) (playerTweetDoc pid handle t) s := fun _ => rfl
  have hp' : ∀ s : PlayerStore, store_player_tweets pid handle' [t'] s =
      upsertSetOnInsert (pid, t.id) (playerTweetDoc pid handle' t') s := by
    intro s
    rw [show store_player_tweets pid handle' [t'] s =
      upsertSetOnInsert (pid, t'.id) (playerTweetDoc pid handle' t') s from rfl, hid]
  refine ⟨?_, ?_, ?_, ?_, ?_, ?_⟩
  · rw [hteam', hteam, upsert_upsert]
  · intro h
    have hfun : fetch_team_tweets_store [t] = fun s : TeamStore =>
        upsertSetOnInsert ("twitter", t.id) (teamTweetDoc t) s := rfl
    rw [hfun]
    exact countKey_iterate_upsert _ n h
  · intro h
    rw [hteam']
    exact lookupKey_upsert _ h
  · rw [hp', hp, upsert_upsert]
  · intro h
    have hfun : store_player_tweets pid handle [t] = fun s : PlayerStore =>
        upsertSetOnInsert (pid, t.id) (playerTweetDoc pid handle t) s := rfl
    rw [hfun]
    exact countKey_iterate_upsert _ m h
  · intro h
    rw [hp']
    exact lookupKey_upsert _ h

/-- Witness for C5: tweet 1001 sighted twice (second time with edited text),
for the team store and for player "ksc". -/
theorem ingestion_idempotent_by_key_witness :
    (fetch_team_tweets_store [⟨"1001", "2024-05-01T00:00:00Z", "edited"⟩]
        (fetch_team_tweets_store [⟨"1001", "2024-05-01T00:00:00Z", "match day"⟩] []) =
      fetch_team_tweets_store [⟨"1001", "2024-05-01T00:00:00Z", "match day"⟩] []) ∧
    (countKey ("twitter", "1001")
        (Nat.iterate
          (fetch_team_tweets_store [⟨"1001", "2024-05-01T00:00:00Z", "match day"⟩]) 1 []) = 1) ∧
    (lookupKey ("twitter", "1001")
        (fetch_team_tweets_store [⟨"1001", "2024-05-01T00:00:00Z", "edited"⟩]
          [(("twitter", "1001"), teamTweetDoc ⟨"1001", "2024-05-01T00:00:00Z", "match day"⟩)]) =
      some (teamTweetDoc ⟨"1001", "2024-05-01T00:00:00Z", "match day"⟩)) ∧
    (store_player_tweets "ksc" "kscerato2" [⟨"1001", "2024-05-01T00:00:00Z", "edited"⟩]
        (store_player_tweets "ksc" "kscerato"
          [⟨"1001", "2024-05-01T00:00:00Z", "match day"⟩] []) =
      store_player_tweets "ksc" "kscerato" [⟨"1001", "2024-05-01T00:00:00Z", "match day"⟩] []) ∧
    (countKey ("ksc", "1001")
        (Nat.iterate
          (store_player_tweets "ksc" "kscerato"
            [⟨"1001", "2024-05-01T00:00:00Z", "match day"⟩]) 1 []) = 1) ∧
    (lookupKey ("ksc", "1001")
        (store_player_tweets "ksc" "kscerato2" [⟨"1001", "2024-05-01T00:00:00Z", "edited"⟩]
          [(("ksc", "1001"), teamTweetDoc ⟨"1001", "2024-05-01T00:00:00Z", "match day"⟩)]) =
      some (teamTweetDoc ⟨"1001", "2024-05-01T00:00:00Z", "match day"⟩)) := by
  have T := ingestion_idempotent_by_key ⟨"1001", "2024-05-01T00:00:00Z", "match day"⟩
    ⟨"1001", "2024-05-01T00:00:00Z", "edited"⟩ rfl
    (teamTweetDoc ⟨"1001", "2024-05-01T00:00:00Z", "match day"⟩)
    [] []
    [(("twitter", "1001"), teamTweetDoc ⟨"1001", "2024-05-01T00:00:00Z", "match day"⟩)] 0
    "ksc" "kscerato" "kscerato2" [] []
    [(("ksc", "1001"), teamTweetDoc ⟨"1001", "2024-05-01T00:00:00Z", "match day"⟩)] 0
  exact ⟨T.1, T.2.1 rfl, T.2.2.1 (by decide), T.2.2.2.1, T.2.2.2.2.1 rfl,
    T.2.2.2.2.2 (by decide)⟩

/-- Claim C6, counterexample: the caller of fetch_player_tweets cannot tell
an unconfigured handle from a generic fetch failure. With a registry that
configures only "yuurih" and an API whose calls fail with HTTP 500, calling
for the unconfigured "kscerato" and calling for the configured "yuurih"
produce identical caller-visible outcomes (the function returns None in both
cases and the store is unchanged in both cases). -/
theorem unconfigured_handle_caller_indistinguishable :
    fetch_player_tweets_caller [("yuurih", ⟨some "yuurihfps", none⟩)]
        ⟨fun _ => Except.error 500, fun _ => Except.error 500⟩ "kscerato" [] =
      fetch_player_tweets_caller [("yuurih", ⟨some "yuurihfps", none⟩)]
        ⟨fun _ => Except.error 500, fun _ => Except.error 500⟩ "yuurih" [] := by
  decide

/-- Claim C6, amended: fetch_player_tweets raises a distinct
"handle not configured" ValueError internally exactly when the registry has
no handle for the player, but its blanket except handler catches it: the
error is only logged, the caller gets the same None return as on any other
failure, with the store unchanged, and no exception escapes. -/
theorem handle_not_configured_logged_only (players : PlayerRegistry) (api : TwitterApi)
    (pid : String) (s : PlayerStore) :
    ((fetch_player_tweets players api pid s).1 = some (FetchErr.handleNotConfigured pid) ↔
      get_twitter_handle players pid = none) ∧
    (get_twitter_handle players pid = none →
      fetch_player_tweets players api pid s = (some (FetchErr.handleNotConfigured pid), s)) := by
  unfold fetch_player_tweets fetch_player_tweets_core
  cases hh : get_twitter_handle players pid with
  | none => simp
  | some handle =>
    cases hu : api.user_id_of handle with
    | error st => simp [hu]
    | ok uid =>
      cases ht : api.tweets_of uid with
      | error st => simp [hu, ht]
      | ok ts => simp [hu, ht]

/-- Witness for the amended C6 at the unconfigured player "kscerato". -/
theorem handle_not_configured_logged_only_witness :
    fetch_player_tweets [("yuurih", ⟨some "yuurihfps", none⟩)]
        ⟨fun _ => Except.error 500, fun _ => Except.error 500⟩ "kscerato" [] =
      (some (FetchErr.handleNotConfigured "kscerato"), []) :=
  (handle_not_configured_logged_only [("yuurih", ⟨some "yuurihfps", none⟩)]
    ⟨fun _ => Except.error 500, fun _ => Except.error 500⟩ "kscerato" []).2 (by decide)

/-! ## Survey aggregation lemmas and claims -/

/-- Lookup on a cons checks the head key first. -/
theorem lookupKey_cons {κ δ : Type} [DecidableEq κ] (q : κ × δ) (rest : List (κ × δ))
    (o : κ) :
    lookupKey o (q :: rest) = if q.1 = o then some q.2 else lookupKey o rest := by
  by_cases h : q.1 = o <;> simp [lookupKey, List.find?_cons, h]

/-- Bumping a key increments exactly the stored count of that key. -/
theorem lookupKey_bumpKey_self {κ : Type} [DecidableEq κ] (c : List (κ × ℕ)) (k : κ) :
    lookupKey k (bumpKey c k) = (lookupKey k c).map (fun n => n + 1) := by
  induction c with
  | nil => rfl
  | cons p rest ih =>
    rw [show bumpKey (p :: rest) k =
      (if p.1 = k then (p.1, p.2 + 1) else p) :: bumpKey rest k from rfl]
    by_cases h : p.1 = k
    · simp [lookupKey_cons, h]
    · simp [lookupKey_cons, h, ih]

/-- Bumping a key leaves every other count unchanged. -/
theorem lookupKey_bumpKey_ne {κ : Type} [DecidableEq κ] {o k : κ} (c : List (κ × ℕ))
    (h : o ≠ k) : lookupKey o (bumpKey c k) = lookupKey o c := by
  induction c with
  | nil => rfl
  | cons p rest ih =>
    rw [show bumpKey (p :: rest) k =
      (if p.1 = k then (p.1, p.2 + 1) else p) :: bumpKey rest k from rfl]
    by_cases hp : p.1 = k
    · have hpo : ¬ p.1 = o := fun hh => h (hh.symm.trans hp)
      simp [lookupKey_cons, hp, hpo, ih, h, Ne.symm h]
    · by_cases hpo : p.1 = o
      · simp [lookupKey_cons, hp, hpo, h, Ne.symm h]
      · simp [lookupKey_cons, hp, hpo, ih, h, Ne.symm h]

/-- The zero-count dict has exactly the declared options as keys. -/
theorem containsKey_initCounts_iff (options : List String) (o : String) :
    containsKey o (initCounts options) = true ↔ o ∈ options := by
  have key : ∀ (opts : List String) (acc : List (String × ℕ)),
      containsKey o (opts.foldl
        (fun acc o' => if containsKey o' acc then acc else acc ++ [(o', 0)]) acc) = true ↔
      containsKey o acc = true ∨ o ∈ opts := by
    intro opts
    induction opts with
    | nil => intro acc; simp
    | cons o' rest ih =>
      intro acc
      rw [List.foldl_cons, ih]
      by_cases hc : containsKey o' acc
      · by_cases ho : o = o'
        · subst ho; simp [hc]
        · simp [hc, ho]
      · simp only [hc, Bool.false_eq_true, if_false]
        constructor
        · rintro (h | h)
          · simp only [containsKey, List.any_append, Bool.or_eq_true] at h
            rcases h with h | h
            · exact Or.inl h
            · simp only [List.any_cons, List.any_nil, Bool.or_false,
                decide_eq_true_eq] at h
              exact Or.inr (by simp [h])
          · exact Or.inr (List.mem_cons_of_mem _ h)
        · rintro (h | h)
          · exact Or.inl (by simp [containsKey, List.any_append] at h ⊢; tauto)
          · rcases List.mem_cons.1 h with h | h
            · subst h
              exact Or.inl (by simp [containsKey, List.any_append])
            · exact Or.inr h
  rw [initCounts, key]
  simp [containsKey]

/-- Every count in the zero-count dict is zero. -/
theorem initCounts_val_zero (options : List String) :
    ∀ p ∈ initCounts options, p.2 = 0 := by
  have key : ∀ (opts : List String) (acc : List (String × ℕ)),
      (∀ p ∈ acc, p.2 = 0) →
      ∀ p ∈ opts.foldl
        (fun acc o' => if containsKey o' acc then acc else acc ++ [(o', 0)]) acc, p.2 = 0 := by
    intro opts
    induction opts with
    | nil => intro acc h; simpa using h
    | cons o' rest ih =>
      intro acc h
      rw [List.foldl_cons]
      refine ih _ ?_
      by_cases hc : containsKey o' acc
      · simpa [hc] using h
      · simp only [hc, Bool.false_eq_true, if_false]
        intro p hp
        rcases List.mem_append.1 hp with hp | hp
        · exact h p hp
        · simp only [List.mem_singleton] at hp
          rw [hp]
  exact key options [] (by simp)

/-- Lookup of a present key in an all-zero dict gives zero. -/
theorem lookupKey_of_contains_zero {c : List (String × ℕ)} {o : String}
    (hc : containsKey o c = true) (hz : ∀ p ∈ c, p.2 = 0) :
    lookupKey o c = some 0 := by
  rcases List.any_eq_true.1 hc with ⟨q, hq, hqo⟩
  have hs : (c.find? (fun p => decide (p.1 = o))).isSome := by
    rw [List.find?_isSome]
    exact ⟨q, hq, hqo⟩
  rcases Option.isSome_iff_exists.1 hs with ⟨q', hq'⟩
  have hm := List.mem_of_find?_eq_some hq'
  rw [lookupKey, hq']
  simp [hz q' hm]

/-- Mapping a function of the element over an indexed enumeration forgets
the indices. -/
theorem enumFrom_map_snd {α β : Type} (f : α → β) (l : List α) :
    ∀ n : ℕ, (l.enumFrom n).map (fun p => f p.2) = l.map f := by
  induction l with
  | nil => intro n; rfl
  | cons a rest ih => intro n; simp [List.enumFrom, ih]

/-- Mapping a function of the element over enum forgets the indices. -/
theorem enum_map_snd_fn {α β : Type} (f : α → β) (l : List α) :
    l.enum.map (fun p => f p.2) = l.map f :=
  enumFrom_map_snd f l 0

/-- Claim C7: on options ["A","B","C"] and the three multiple-choice
answers [["A","B"],["B"],["C","A"]] the tally is A:2, B:2, C:1; in
general the counts dict has exactly the declared options as keys, a tallied
string that is a declared option increments exactly its own count, and any
tallied value that is not a declared option (or not a string at all) leaves
the counts unchanged. -/
theorem choice_tally_per_option :
    tallyChoice ["A", "B", "C"]
      [PyVal.list [PyScalar.str "A", PyScalar.str "B"],
       PyVal.list [PyScalar.str "B"],
       PyVal.list [PyScalar.str "C", PyScalar.str "A"]] =
      [("A", 2), ("B", 2), ("C", 1)] ∧
    (∀ (options : List String) (s : String),
      containsKey s (initCounts options) = true ↔ s ∈ options) ∧
    (∀ (counts : List (String × ℕ)) (s : String), containsKey s counts = true →
      lookupKey s (countSelected counts (PyScalar.str s)) =
        (lookupKey s counts).map (fun n => n + 1)) ∧
    (∀ (counts : List (String × ℕ)) (s o : String), o ≠ s →
      lookupKey o (countSelected counts (PyScalar.str s)) = lookupKey o counts) ∧
    (∀ (counts : List (String × ℕ)) (s : String), containsKey s counts = false →
      countSelected counts (PyScalar.str s) = counts) ∧
    (∀ (counts : List (String × ℕ)) (v : PyScalar), (∀ s, v ≠ PyScalar.str s) →
      countSelected counts v = counts) := by
  refine ⟨by decide, containsKey_initCounts_iff, ?_, ?_, ?_, ?_⟩
  · intro counts s h
    simp [countSelected, h, lookupKey_bumpKey_self]
  · intro counts s o ho
    unfold countSelected
    by_cases hc : containsKey s counts
    · simp only [hc, if_true]
      exact lookupKey_bumpKey_ne counts ho
    · simp [hc]
  · intro counts s h
    simp [countSelected, h]
  · intro counts v hv
    cases v with
    | str s => exact absurd rfl (hv s)
    | none => rfl
    | int n => rfl

/-- Witness for C7 at concrete counts, options and answer values. -/
theorem choice_tally_per_option_witness :
    (lookupKey "A" (countSelected [("A", 0)] (PyScalar.str "A")) = some 1) ∧
    (lookupKey "B" (countSelected [("A", 0), ("B", 2)] (PyScalar.str "A")) = some 2) ∧
    (countSelected [("A", 0)] (PyScalar.str "Z") = [("A", 0)]) ∧
    (countSelected [("A", 0)] (PyScalar.int 7) = [("A", 0)]) := by
  refine ⟨?_, ?_, ?_, ?_⟩
  · have h := choice_tally_per_option.2.2.1 [("A", 0)] "A" (by decide)
    rw [h]; decide
  · have h := choice_tally_per_option.2.2.2.1 [("A", 0), ("B", 2)] "A" "B" (by decide)
    rw [h]; decide
  · exact choice_tally_per_option.2.2.2.2.1 [("A", 0)] "Z" (by decide)
  · exact choice_tally_per_option.2.2.2.2.2 [("A", 0)] (PyScalar.int 7) (by intro s; simp)

/-- Claim C8: the scale answers [3, 5, "x", null, 7] aggregate to average
5, min 3, max 7 (with histogram keyed by value), and appending any answer
that no coercion accepts (absent, non-numeric string, or a list) leaves the
whole numeric summary unchanged: the statistics range over exactly the
coercible answers. -/
theorem scale_aggregation_coercible_only :
    scaleStatsOf [pyInt 3, pyInt 5, pyStr "x", pyNone, pyInt 7] =
      some { average := 5, min := 3, max := 7,
             distribution := [(3, 1), (5, 1), (7, 1)] } ∧
    (∀ (answers : List PyVal) (v : PyVal), scaleAnswersOf [v] = [] →
      scaleStatsOf (answers ++ [v]) = scaleStatsOf answers) := by
  constructor
  · have hans : scaleAnswersOf [pyInt 3, pyInt 5, pyStr "x", pyNone, pyInt 7] =
        [3, 5, 7] := by decide
    have hdist : buildDist [3, 5, 7] = [(3, 1), (5, 1), (7, 1)] := by decide
    rw [scaleStatsOf, hans]
    simp only [scaleStatsFromList, hdist]
    norm_num
  · intro answers v h
    have hli : scaleAnswersOf (answers ++ [v]) = scaleAnswersOf answers := by
      unfold scaleAnswersOf at h ⊢
      rw [List.filterMap_append, h, List.append_nil]
    rw [scaleStatsOf, scaleStatsOf, hli]

/-- Witness for C8: a non-coercible trailing answer is skipped. -/
theorem scale_aggregation_coercible_only_witness :
    scaleStatsOf [pyInt 3, pyStr "x"] = scaleStatsOf [pyInt 3] :=
  scale_aggregation_coercible_only.2 [pyInt 3] (pyStr "x") (by decide)

/-- Claim C9: aggregating an empty response set is well defined for every
question: no numeric summary is produced, a choice question reports the
declared options each with count zero, a text question reports an empty
list, and the whole results document is the title, a zero total and the
per-question empty aggregations in order. -/
theorem empty_responses_well_defined (q : Question) (title : String) (qs : List Question) :
    (aggregateQuestion q []).scale = Option.none ∧
    (q.qtype = "multiple_choice" ∨ q.qtype = "single_choice" →
      (aggregateQuestion q []).option_counts = some (initCounts q.options) ∧
      ∀ o ∈ q.options, lookupKey o (initCounts q.options) = some 0) ∧
    (q.qtype = "text" → (aggregateQuestion q []).text_answers = some []) ∧
    get_survey_results title qs [] =
      { survey_title := title, total_responses := 0,
        questions := qs.map (fun q' => aggregateQuestion q' []) } := by
  refine ⟨?_, ?_, ?_, ?_⟩
  · unfold aggregateQuestion
    split_ifs <;> rfl
  · intro h
    constructor
    · unfold aggregateQuestion
      rw [if_pos h]
      rfl
    · intro o ho
      exact lookupKey_of_contains_zero ((containsKey_initCounts_iff _ _).2 ho)
        (initCounts_val_zero _)
  · intro h
    simp [aggregateQuestion, h, textAnswersOf]
  · unfold get_survey_results
    simp only [List.length_nil, List.map_nil]
    have hq : qs.enum.map (fun p : ℕ × Question => aggregateQuestion p.2 []) =
        qs.map (fun q' : Question => aggregateQuestion q' []) :=
      enum_map_snd_fn (fun q' : Question => aggregateQuestion q' []) qs
    rw [hq]

/-- Witness for C9 at a concrete choice question and a text question. -/
theorem empty_responses_well_defined_witness :
    (aggregateQuestion ⟨"games", "multiple_choice", ["A", "B"]⟩ []).scale = Option.none ∧
    (aggregateQuestion ⟨"games", "multiple_choice", ["A", "B"]⟩ []).option_counts =
      some (initCounts ["A", "B"]) ∧
    lookupKey "A" (initCounts ["A", "B"]) = some 0 ∧
    (aggregateQuestion ⟨"fb", "text", []⟩ []).text_answers = some [] ∧
    get_survey_results "t" [⟨"games", "multiple_choice", ["A", "B"]⟩] [] =
      { survey_title := "t", total_responses := 0,
        questions := [⟨"games", "multiple_choice", ["A", "B"]⟩].map
          (fun q' => aggregateQuestion q' []) } := by
  have h1 := empty_responses_well_defined ⟨"games", "multiple_choice", ["A", "B"]⟩ "t"
    [⟨"games", "multiple_choice", ["A", "B"]⟩]
  have h2 := empty_responses_well_defined ⟨"fb", "text", []⟩ "t" []
  exact ⟨h1.1, (h1.2.1 (Or.inl rfl)).1, (h1.2.1 (Or.inl rfl)).2 "A" (by simp),
    h2.2.2.1 rfl, h1.2.2.2⟩


end FuriaBot
